import Mathlib

/-!
Verification of the cache-aside resolution pipeline of `src/graphql_schema.py`.

The embedding below translates the three list resolvers (`resolve_customers`,
`resolve_products`, `resolve_invoices`), the three by-id resolvers, and the
`CreateCustomer.mutate` mutation into pure Lean functions.  Collaborators that
the module pulls from the request context are modelled explicitly:

* `GoManageClient` is the remote backend; each of its operations may raise
  (modelled with `Except String`), mirroring that a remote call can fail.
* `CacheMgr` is the cache manager.  Its store is an association list from
  string keys to record lists (a model of the underlying key/value dict with
  `set` shadowing older entries and `delete` removing every entry for a key).
  The fields `getRaises`, `setRaises` and `deleteRaises` model an unreachable
  underlying store whose operation raises with the given message; the
  resolvers' `try/except` blocks catch such exceptions.
* Python truthiness is embedded where the source relies on it: `search or
  'all'` treats `None` and `""` alike, `if cached_data:` treats a missing key
  and an empty cached list alike, and `if search and customers:` skips the
  filter for an empty term or an empty working set.
* Records are Python dicts; only the fields the resolvers consult are
  modelled (the cache treats records as opaque and never mutates them).  An
  `Option` field value of `none` models an absent key, for which the source's
  `.get(field, default)` supplies the default.

Effects are made observable: each resolver returns, besides its record list,
the cache manager after the call, the number of backend calls performed, and
the list of cache `set` / `delete` operations that succeeded.
-/

namespace DocuApi

/-- Model of Python `str.lower()` : per-character lowering. -/
def pyLower (s : String) : String := ⟨s.data.map Char.toLower⟩

/-- Model of Python `needle in hay` on strings: contiguous substring test. -/
def pyIn (needle hay : String) : Bool := decide (needle.data <:+: hay.data)

/-- Model of Python `term or 'all'` used in the cache-key f-strings: `None`
and the empty string are falsy and collapse to `"all"`. -/
def pyOrAll : Option String → String
  | none => "all"
  | some s => if s = "" then "all" else s

/-- Model of `str(d.get(key, ''))` for an integer-valued key: an absent key
yields `str('') = ""`, a present integer is rendered in decimal. -/
def pyStr : Option Int → String
  | none => ""
  | some n => toString n

/-- Customer record (the dict fields the resolvers consult). -/
structure CustomerRec where
  customer_id : Option Int
  business_name : Option String
  vat_number : Option String
  deriving DecidableEq

/-- Product record (the dict fields the resolvers consult). -/
structure ProductRec where
  product_id : Option String
  reference : Option String
  description : Option String
  deriving DecidableEq

/-- Invoice record (the dict field the resolvers consult). -/
structure InvoiceRec where
  invoice_id : Option Int
  deriving DecidableEq

/-- Customer payload assembled by `CreateCustomer.mutate` (lines 277-288). -/
structure CustomerData where
  business_name : String
  vat_number : String
  name : String
  email : String
  street_name : String
  postal_code : Option Int
  city : String
  province_id : Option Int
  country_id : String
  phone : String
  deriving DecidableEq

/-- The GoManage backend client, as consumed by the resolvers.  Every remote
call may fail, modelled by `Except String`.  `createCustomer` returns the
truthiness of the backend's result (`if result:` in the source). -/
structure GoManageClient where
  getCustomers : Int → Except String (List CustomerRec)
  getProducts : Int → Except String (List ProductRec)
  getInvoices : Int → Option String → Except String (List InvoiceRec)
  createCustomer : CustomerData → Except String Bool

/-- Lookup in the key/value store (model of `cache.get(key)`). -/
def storeGet : List (String × α) → String → Option α
  | [], _ => none
  | (k0, v) :: st, k => if k == k0 then some v else storeGet st k

/-- Insertion into the key/value store (model of `cache.set(key, v, ttl)`);
the new binding shadows any older one, as a dict assignment replaces it. -/
def storeSet (st : List (String × α)) (k : String) (v : α) : List (String × α) :=
  (k, v) :: st

/-- Deletion from the key/value store (model of `cache.delete(key)`). -/
def storeDelete (st : List (String × α)) (k : String) : List (String × α) :=
  st.filter (fun p => p.1 != k)

/-- The cache manager pulled from the request context.  One string keyspace
holds customer, product and invoice lists; since every key carries its
resource prefix (`customers_` / `products_` / `invoices_`), the keyspace
splits into three disjoint typed stores.  A `some msg` in `getRaises`,
`setRaises` or `deleteRaises` models the underlying store raising `msg` on
the corresponding operation (caught by the callers' `try/except`). -/
structure CacheMgr where
  custStore : List (String × List CustomerRec)
  prodStore : List (String × List ProductRec)
  invStore : List (String × List InvoiceRec)
  getRaises : Option String
  setRaises : Option String
  deleteRaises : Option String
  deriving DecidableEq

/-- The ambient request context (`info.context`) holding the collaborators. -/
structure Context where
  gomanage_client : Option GoManageClient
  cache_manager : Option CacheMgr

/-- Outcome of one list-resolver call: the returned records plus the
observable effects (resulting cache manager, number of backend calls, and
the successful cache `set` operations as `(key, value, ttl)` triples and
cache `delete` operations as keys). -/
structure FetchOut (ρ : Type) where
  result : List ρ
  cacheAfter : Option CacheMgr
  backendCalls : Nat
  setOps : List (String × List ρ × Nat)
  deleteOps : List String
  deriving DecidableEq

/-- Cache key of `resolve_customers` (line 82):
`f"customers_{limit}_{search or 'all'}"`. -/
def customersKey (limit : Int) (search : Option String) : String :=
  "customers_" ++ toString limit ++ "_" ++ pyOrAll search

/-- Cache key of `resolve_products` (line 137). -/
def productsKey (limit : Int) (search : Option String) : String :=
  "products_" ++ toString limit ++ "_" ++ pyOrAll search

/-- Cache key of `resolve_invoices` (line 191). -/
def invoicesKey (limit : Int) (from_date : Option String) : String :=
  "invoices_" ++ toString limit ++ "_" ++ pyOrAll from_date

/-- Per-record search predicate of `resolve_customers` (lines 103-105):
the lowered term occurs in `business_name`, `vat_number` or
`str(customer_id)`, each lowered, with `.get(…, '') or ''` defaults. -/
def customerMatch (search_lower : String) (c : CustomerRec) : Bool :=
  pyIn search_lower (pyLower (c.business_name.getD "")) ||
  pyIn search_lower (pyLower (c.vat_number.getD "")) ||
  pyIn search_lower (pyLower (pyStr c.customer_id))

/-- Per-record search predicate of `resolve_products` (lines 158-159). -/
def productMatch (search_lower : String) (p : ProductRec) : Bool :=
  pyIn search_lower (pyLower (p.reference.getD "")) ||
  pyIn search_lower (pyLower (p.description.getD ""))

/-- Post-fetch filter step of `resolve_customers` (lines 99-106):
`if search and customers:` keeps the working set unchanged when the term is
absent/empty or the working set is empty. -/
def applyCustomerSearch (search : Option String) (customers : List CustomerRec) :
    List CustomerRec :=
  match search with
  | none => customers
  | some s =>
    if s = "" ∨ customers = [] then customers
    else customers.filter (customerMatch (pyLower s))

/-- Post-fetch filter step of `resolve_products` (lines 154-160). -/
def applyProductSearch (search : Option String) (products : List ProductRec) :
    List ProductRec :=
  match search with
  | none => products
  | some s =>
    if s = "" ∨ products = [] then products
    else products.filter (productMatch (pyLower s))

/-- Resolver for the customer list (`Query.resolve_customers`, lines 70-112).
Cache-aside: derive the key, try the cache (`if cached_data:` makes an empty
cached list a miss), fall back to the backend, cache a non-empty result for
3600 s, filter, return.  Every exception along the way is caught and turned
into an empty list. -/
def resolveCustomers (ctx : Context) (limit : Int) (search : Option String) :
    FetchOut CustomerRec :=
  match ctx.gomanage_client with
  | none => ⟨[], ctx.cache_manager, 0, [], []⟩
  | some gm =>
    match ctx.cache_manager with
    | none =>
      match gm.getCustomers limit with
      | Except.error _ => ⟨[], none, 1, [], []⟩
      | Except.ok customers => ⟨applyCustomerSearch search customers, none, 1, [], []⟩
    | some cm =>
      match cm.getRaises with
      | some _ => ⟨[], some cm, 0, [], []⟩
      | none =>
        match storeGet cm.custStore (customersKey limit search) with
        | some (c :: cs) => ⟨applyCustomerSearch search (c :: cs), some cm, 0, [], []⟩
        | _ =>
          match gm.getCustomers limit with
          | Except.error _ => ⟨[], some cm, 1, [], []⟩
          | Except.ok [] => ⟨applyCustomerSearch search [], some cm, 1, [], []⟩
          | Except.ok (c :: cs) =>
            match cm.setRaises with
            | some _ => ⟨[], some cm, 1, [], []⟩
            | none =>
              ⟨applyCustomerSearch search (c :: cs),
               some ⟨storeSet cm.custStore (customersKey limit search) (c :: cs), cm.prodStore,
                     cm.invStore, cm.getRaises, cm.setRaises, cm.deleteRaises⟩,
               1, [((customersKey limit search), c :: cs, 3600)], []⟩

/-- Resolver for the product list (`Query.resolve_products`, lines 126-166);
same shape as the customer resolver with a 7200 s TTL. -/
def resolveProducts (ctx : Context) (limit : Int) (search : Option String) :
    FetchOut ProductRec :=
  match ctx.gomanage_client with
  | none => ⟨[], ctx.cache_manager, 0, [], []⟩
  | some gm =>
    match ctx.cache_manager with
    | none =>
      match gm.getProducts limit with
      | Except.error _ => ⟨[], none, 1, [], []⟩
      | Except.ok products => ⟨applyProductSearch search products, none, 1, [], []⟩
    | some cm =>
      match cm.getRaises with
      | some _ => ⟨[], some cm, 0, [], []⟩
      | none =>
        match storeGet cm.prodStore (productsKey limit search) with
        | some (p :: ps) => ⟨applyProductSearch search (p :: ps), some cm, 0, [], []⟩
        | _ =>
          match gm.getProducts limit with
          | Except.error _ => ⟨[], some cm, 1, [], []⟩
          | Except.ok [] => ⟨applyProductSearch search [], some cm, 1, [], []⟩
          | Except.ok (p :: ps) =>
            match cm.setRaises with
            | some _ => ⟨[], some cm, 1, [], []⟩
            | none =>
              ⟨applyProductSearch search (p :: ps),
               some ⟨cm.custStore, storeSet cm.prodStore (productsKey limit search) (p :: ps),
                     cm.invStore, cm.getRaises, cm.setRaises, cm.deleteRaises⟩,
               1, [((productsKey limit search), p :: ps, 7200)], []⟩

/-- Resolver for the invoice list (`Query.resolve_invoices`, lines 180-211);
the optional `from_date` goes both into the key and to the backend call, no
post-fetch filter, 1800 s TTL. -/
def resolveInvoices (ctx : Context) (limit : Int) (from_date : Option String) :
    FetchOut InvoiceRec :=
  match ctx.gomanage_client with
  | none => ⟨[], ctx.cache_manager, 0, [], []⟩
  | some gm =>
    match ctx.cache_manager with
    | none =>
      match gm.getInvoices limit from_date with
      | Except.error _ => ⟨[], none, 1, [], []⟩
      | Except.ok invoices => ⟨invoices, none, 1, [], []⟩
    | some cm =>
      match cm.getRaises with
      | some _ => ⟨[], some cm, 0, [], []⟩
      | none =>
        match storeGet cm.invStore (invoicesKey limit from_date) with
        | some (i :: invs) => ⟨i :: invs, some cm, 0, [], []⟩
        | _ =>
          match gm.getInvoices limit from_date with
          | Except.error _ => ⟨[], some cm, 1, [], []⟩
          | Except.ok [] => ⟨[], some cm, 1, [], []⟩
          | Except.ok (i :: invs) =>
            match cm.setRaises with
            | some _ => ⟨[], some cm, 1, [], []⟩
            | none =>
              ⟨i :: invs,
               some ⟨cm.custStore, cm.prodStore,
                     storeSet cm.invStore (invoicesKey limit from_date) (i :: invs),
                     cm.getRaises, cm.setRaises, cm.deleteRaises⟩,
               1, [((invoicesKey limit from_date), i :: invs, 1800)], []⟩

/-- Outcome of a by-id resolver call: the record found (or `none`) plus the
effects of the underlying list-resolver call. -/
structure ByIdOut (ρ : Type) where
  record : Option ρ
  listOut : FetchOut ρ
  deriving DecidableEq

/-- The `for`-loop of `resolve_customer` (lines 118-121): first record whose
`customer_id` equals the argument, else `None`. -/
def scanCustomers (customer_id : Int) : List CustomerRec → Option CustomerRec
  | [] => none
  | c :: cs =>
    if c.customer_id == some customer_id then some c
    else scanCustomers customer_id cs

/-- The `for`-loop of `resolve_product` (lines 172-174). -/
def scanProducts (product_id : String) : List ProductRec → Option ProductRec
  | [] => none
  | p :: ps =>
    if p.product_id == some product_id then some p
    else scanProducts product_id ps

/-- The `for`-loop of `resolve_invoice` (lines 217-219). -/
def scanInvoices (invoice_id : Int) : List InvoiceRec → Option InvoiceRec
  | [] => none
  | i :: invs =>
    if i.invoice_id == some invoice_id then some i
    else scanInvoices invoice_id invs

/-- Resolver for a single customer (`Query.resolve_customer`, lines 114-124):
fetch the `limit=1000`, search-free listing and scan it linearly. -/
def resolveCustomer (ctx : Context) (customer_id : Int) : ByIdOut CustomerRec :=
  let out := resolveCustomers ctx 1000 none
  ⟨scanCustomers customer_id out.result, out⟩

/-- Resolver for a single product (`Query.resolve_product`, lines 168-178). -/
def resolveProduct (ctx : Context) (product_id : String) : ByIdOut ProductRec :=
  let out := resolveProducts ctx 1000 none
  ⟨scanProducts product_id out.result, out⟩

/-- Resolver for a single invoice (`Query.resolve_invoice`, lines 213-223). -/
def resolveInvoice (ctx : Context) (invoice_id : Int) : ByIdOut InvoiceRec :=
  let out := resolveInvoices ctx 1000 none
  ⟨scanInvoices invoice_id out.result, out⟩

/-- Result object of the `CreateCustomer` mutation (its three fields). -/
structure CreateCustomerPayload where
  customer : Option CustomerData
  success : Bool
  message : String
  deriving DecidableEq

/-- Optional keyword arguments of `CreateCustomer.mutate` (`**kwargs`). -/
structure CreateKwargs where
  name : Option String
  email : Option String
  street_name : Option String
  postal_code : Option Int
  city : Option String
  province_id : Option Int
  country_id : Option String
  phone : Option String
  deriving DecidableEq

/-- The `customer_data` dict assembled by `CreateCustomer.mutate`
(lines 277-288), with the source's `kwargs.get` defaults. -/
def buildCustomerData (business_name vat_number : String) (kw : CreateKwargs) :
    CustomerData :=
  ⟨business_name, vat_number, kw.name.getD business_name, kw.email.getD "",
   kw.street_name.getD "", kw.postal_code, kw.city.getD "", kw.province_id,
   kw.country_id.getD "ES", kw.phone.getD ""⟩

/-- Outcome of one `CreateCustomer.mutate` call: the payload plus the
observable effects. -/
structure MutOut where
  payload : CreateCustomerPayload
  cacheAfter : Option CacheMgr
  createCalls : Nat
  deleteOps : List String
  deriving DecidableEq

/-- The `CreateCustomer.mutate` handler (lines 265-315): build the payload,
call the backend; a truthy result deletes the two default customer-listing
keys and reports success, a falsy result or any exception reports
`success=False` without touching the cache (an exception raised by the
cache's own `delete` is caught after the backend call). -/
def createCustomerMutate (ctx : Context) (business_name vat_number : String)
    (kw : CreateKwargs) : MutOut :=
  match ctx.gomanage_client with
  | none => ⟨⟨none, false, "GoManage client no disponible"⟩, ctx.cache_manager, 0, []⟩
  | some gm =>
    let customer_data := buildCustomerData business_name vat_number kw
    match gm.createCustomer customer_data with
    | Except.error e => ⟨⟨none, false, "Error: " ++ e⟩, ctx.cache_manager, 1, []⟩
    | Except.ok false =>
      ⟨⟨none, false, "Error creando cliente en GoManage"⟩, ctx.cache_manager, 1, []⟩
    | Except.ok true =>
      match ctx.cache_manager with
      | none => ⟨⟨some customer_data, true, "Cliente creado exitosamente"⟩, none, 1, []⟩
      | some cm =>
        match cm.deleteRaises with
        | some e => ⟨⟨none, false, "Error: " ++ e⟩, some cm, 1, []⟩
        | none =>
          ⟨⟨some customer_data, true, "Cliente creado exitosamente"⟩,
           some ⟨storeDelete (storeDelete cm.custStore "customers_100_all")
                   "customers_1000_all",
                 cm.prodStore, cm.invStore,
                 cm.getRaises, cm.setRaises, cm.deleteRaises⟩,
           1, ["customers_100_all", "customers_1000_all"]⟩

/-- Generic cache-key derivation shared (textually) by the three resolvers:
`prefix ++ "_" ++ limit ++ "_" ++ (term or 'all')`. -/
def deriveKey (pre : String) (limit : Int) (term : Option String) : String :=
  pre ++ "_" ++ toString limit ++ "_" ++ pyOrAll term

/-- One external read request, for replaying call sequences. -/
inductive Req
  | customers (limit : Int) (search : Option String)
  | products (limit : Int) (search : Option String)
  | invoices (limit : Int) (from_date : Option String)

/-- Execute one read request against the context, keeping the resulting
cache manager. -/
def stepReq (ctx : Context) (r : Req) : Context :=
  match r with
  | .customers l s => ⟨ctx.gomanage_client, (resolveCustomers ctx l s).cacheAfter⟩
  | .products l s => ⟨ctx.gomanage_client, (resolveProducts ctx l s).cacheAfter⟩
  | .invoices l d => ⟨ctx.gomanage_client, (resolveInvoices ctx l d).cacheAfter⟩

/-- Replay a sequence of read requests. -/
def runReqs (ctx : Context) (rs : List Req) : Context :=
  List.foldl stepReq ctx rs

/-- Every entry of the cache manager holds a full unfiltered backend reply:
a non-empty customer list returned by `getCustomers` at some limit, and
likewise for products and invoices.  An absent cache manager satisfies the
invariant vacuously. -/
def RawCache (gm : GoManageClient) : Option CacheMgr → Prop
  | none => True
  | some cm =>
    (∀ kv ∈ cm.custStore, ∃ l, gm.getCustomers l = Except.ok kv.2 ∧ kv.2 ≠ []) ∧
    (∀ kv ∈ cm.prodStore, ∃ l, gm.getProducts l = Except.ok kv.2 ∧ kv.2 ≠ []) ∧
    (∀ kv ∈ cm.invStore, ∃ l d, gm.getInvoices l d = Except.ok kv.2 ∧ kv.2 ≠ [])

/-- Wire-level argument set of the `createCustomer` mutation field.  At the
wire every argument may be absent; the `Arguments` declaration (lines
250-251) marks `business_name` and `vat_number` `required=True`. -/
structure CreateCustomerArgs where
  business_name : Option String
  vat_number : Option String
  kwargs : CreateKwargs
  deriving DecidableEq

/-- Response of the mutation field: either the mutation payload or a
request-level GraphQL validation error naming a missing argument. -/
inductive GraphQLResp
  | payload (out : MutOut)
  | requestError (missingField : String)
  deriving DecidableEq

/-- Argument layer of the `createCustomer` field.  This layer is not part of
`src/graphql_schema.py`: it is the graphene library's handling of the
`required=True` declarations (lines 250-251).  Graphene rejects a request
that omits a required argument with a request-level validation error — as a
value in the response's error list, not a thrown exception — and invokes
`mutate` only when every required argument is present. -/
def createCustomerField (ctx : Context) (args : CreateCustomerArgs) : GraphQLResp :=
  match args.business_name, args.vat_number with
  | some bn, some vn => .payload (createCustomerMutate ctx bn vn args.kwargs)
  | none, _ => .requestError "business_name"
  | some _, none => .requestError "vat_number"

/-! Concrete fixtures used by witnesses and counterexamples. -/

/-- Sample customer record. -/
def sampleCustomer : CustomerRec := ⟨some 7, some "Acme SL", some "B123"⟩

/-- Second sample customer record. -/
def sampleCustomer2 : CustomerRec := ⟨some 8, some "Other Corp", some "X999"⟩

/-- Sample product record whose reference contains `ABC`. -/
def sampleProduct : ProductRec := ⟨some "P1", some "REF-ABC-1", some "Widget"⟩

/-- Second sample product record, matching neither `ABC` nor `abc`. -/
def sampleProduct2 : ProductRec := ⟨some "P2", some "ZZZ", some "Gadget"⟩

/-- Sample invoice record. -/
def sampleInvoice : InvoiceRec := ⟨some 42⟩

/-- Operational cache manager with an empty store. -/
def emptyCache : CacheMgr := ⟨[], [], [], none, none, none⟩

/-- Backend client returning fixed non-empty lists and a truthy create. -/
def sampleClient : GoManageClient :=
  ⟨fun _ => Except.ok [sampleCustomer, sampleCustomer2],
   fun _ => Except.ok [sampleProduct, sampleProduct2],
   fun _ _ => Except.ok [sampleInvoice],
   fun _ => Except.ok true⟩

/-- Backend client returning empty lists and a falsy create. -/
def emptyClient : GoManageClient :=
  ⟨fun _ => Except.ok [], fun _ => Except.ok [], fun _ _ => Except.ok [],
   fun _ => Except.ok false⟩

/-- Backend client whose every remote call raises. -/
def failingClient : GoManageClient :=
  ⟨fun _ => Except.error "boom", fun _ => Except.error "boom",
   fun _ _ => Except.error "boom", fun _ => Except.error "boom"⟩

/-- Keyword-argument record with every optional argument absent. -/
def noKwargs : CreateKwargs := ⟨none, none, none, none, none, none, none, none⟩

/-! Helper lemmas about the store and the derived keys. -/

/-- Retrieving a freshly set key returns the stored value. -/
theorem storeGet_storeSet_self (st : List (String × α)) (k : String) (v : α) :
    storeGet (storeSet st k v) k = some v := by
  simp [storeGet, storeSet, List.lookup]

/-- Retrieving a deleted key misses. -/
theorem storeGet_storeDelete_self (st : List (String × α)) (k : String) :
    storeGet (storeDelete st k) k = none := by
  induction st with
  | nil => rfl
  | cons kv st ih =>
    rcases kv with ⟨k0, v0⟩
    by_cases h : k0 = k
    · simpa [storeDelete, List.filter_cons, h] using ih
    · have hb : (k0 != k) = true := bne_iff_ne.mpr h
      have hk : (k == k0) = false := beq_eq_false_iff_ne.mpr (Ne.symm h)
      simpa [storeDelete, List.filter_cons, hb, storeGet, hk] using ih

/-- Deleting one key leaves every other key's binding intact. -/
theorem storeGet_storeDelete_ne (st : List (String × α)) {k k' : String}
    (h : k ≠ k') : storeGet (storeDelete st k') k = storeGet st k := by
  induction st with
  | nil => rfl
  | cons kv st ih =>
    rcases kv with ⟨k0, v0⟩
    by_cases hk : k0 = k'
    · subst hk
      have hkk : (k == k0) = false := beq_eq_false_iff_ne.mpr h
      simpa [storeDelete, List.filter_cons, storeGet, hkk] using ih
    · have hb : (k0 != k') = true := bne_iff_ne.mpr hk
      cases hkey : (k == k0)
      · simpa [storeDelete, List.filter_cons, hb, storeGet, hkey] using ih
      · simp [storeDelete, List.filter_cons, hb, storeGet, hkey]

/-- Keys with the same prefix and term but with distinct limit renderings are
distinct. -/
theorem deriveKey_limit_ne (pre : String) {l1 l2 : Int} (t : Option String)
    (h : toString l1 ≠ toString l2) : deriveKey pre l1 t ≠ deriveKey pre l2 t := by
  intro he
  apply h
  have hd := congrArg String.data he
  simp only [deriveKey, String.data_append, List.append_assoc] at hd
  have h1 := List.append_cancel_left hd
  have h2 := List.append_cancel_left h1
  rw [← List.append_assoc, ← List.append_assoc] at h2
  exact String.ext (List.append_cancel_right (List.append_cancel_right h2))

/-- Keys with the same prefix and limit but distinct non-falsy terms are
distinct. -/
theorem deriveKey_term_ne (pre : String) (l : Int) {t1 t2 : String}
    (h1 : t1 ≠ "") (h2 : t2 ≠ "") (hne : t1 ≠ t2) :
    deriveKey pre l (some t1) ≠ deriveKey pre l (some t2) := by
  intro he
  apply hne
  have hd := congrArg String.data he
  simp only [deriveKey, pyOrAll, if_neg h1, if_neg h2, String.data_append,
    List.append_assoc] at hd
  have hc := List.append_cancel_left (List.append_cancel_left
    (List.append_cancel_left (List.append_cancel_left hd)))
  exact String.ext hc

/-- The linear scan of `resolve_customer` is `List.find?` with the
id-equality predicate. -/
theorem scanCustomers_eq_find (cid : Int) (l : List CustomerRec) :
    scanCustomers cid l = l.find? (fun c => c.customer_id == some cid) := by
  induction l with
  | nil => rfl
  | cons c cs ih =>
    cases h : c.customer_id == some cid <;>
      simp [scanCustomers, List.find?, h, ih]

/-- The linear scan of `resolve_product` is `List.find?`. -/
theorem scanProducts_eq_find (pid : String) (l : List ProductRec) :
    scanProducts pid l = l.find? (fun p => p.product_id == some pid) := by
  induction l with
  | nil => rfl
  | cons p ps ih =>
    cases h : p.product_id == some pid <;>
      simp [scanProducts, List.find?, h, ih]

/-- The linear scan of `resolve_invoice` is `List.find?`. -/
theorem scanInvoices_eq_find (iid : Int) (l : List InvoiceRec) :
    scanInvoices iid l = l.find? (fun i => i.invoice_id == some iid) := by
  induction l with
  | nil => rfl
  | cons i invs ih =>
    cases h : i.invoice_id == some iid <;>
      simp [scanInvoices, List.find?, h, ih]

/-- Filtering an empty customer working set yields the empty list. -/
theorem applyCustomerSearch_nil (s : Option String) : applyCustomerSearch s [] = [] := by
  cases s <;> simp [applyCustomerSearch]

/-- Filtering an empty product working set yields the empty list. -/
theorem applyProductSearch_nil (s : Option String) : applyProductSearch s [] = [] := by
  cases s <;> simp [applyProductSearch]

/-! Evaluation lemmas: one per control-flow path of each resolver. -/

/-- Customer fetch without a backend client. -/
theorem resolveCustomers_noClient (c : Option CacheMgr) (l : Int) (s : Option String) :
    resolveCustomers ⟨none, c⟩ l s = ⟨[], c, 0, [], []⟩ := rfl

/-- Customer fetch without a cache, backend raising. -/
theorem resolveCustomers_noCache_err (gm : GoManageClient) (l : Int)
    (s : Option String) (e : String) (hb : gm.getCustomers l = Except.error e) :
    resolveCustomers ⟨some gm, none⟩ l s = ⟨[], none, 1, [], []⟩ := by
  simp [resolveCustomers, hb]

/-- Customer fetch without a cache, backend answering. -/
theorem resolveCustomers_noCache_ok (gm : GoManageClient) (l : Int)
    (s : Option String) (v : List CustomerRec) (hb : gm.getCustomers l = Except.ok v) :
    resolveCustomers ⟨some gm, none⟩ l s = ⟨applyCustomerSearch s v, none, 1, [], []⟩ := by
  simp [resolveCustomers, hb]

/-- Customer fetch whose cache `get` raises. -/
theorem resolveCustomers_getRaises (gm : GoManageClient) (cm : CacheMgr) (l : Int)
    (s : Option String) (m : String) (hg : cm.getRaises = some m) :
    resolveCustomers ⟨some gm, some cm⟩ l s = ⟨[], some cm, 0, [], []⟩ := by
  simp [resolveCustomers, hg]

/-- Customer fetch hitting a non-empty cached entry. -/
theorem resolveCustomers_hit (gm : GoManageClient) (cm : CacheMgr) (l : Int)
    (s : Option String) (c : CustomerRec) (cs : List CustomerRec)
    (hg : cm.getRaises = none)
    (hs : storeGet cm.custStore (customersKey l s) = some (c :: cs)) :
    resolveCustomers ⟨some gm, some cm⟩ l s
      = ⟨applyCustomerSearch s (c :: cs), some cm, 0, [], []⟩ := by
  simp [resolveCustomers, hg, hs]

/-- Customer fetch missing the cache, backend raising. -/
theorem resolveCustomers_miss_err (gm : GoManageClient) (cm : CacheMgr) (l : Int)
    (s : Option String) (e : String) (hg : cm.getRaises = none)
    (hs : storeGet cm.custStore (customersKey l s) = none)
    (hb : gm.getCustomers l = Except.error e) :
    resolveCustomers ⟨some gm, some cm⟩ l s = ⟨[], some cm, 1, [], []⟩ := by
  simp [resolveCustomers, hg, hs, hb]

/-- Customer fetch missing the cache, backend returning the empty list:
nothing is cached. -/
theorem resolveCustomers_miss_empty (gm : GoManageClient) (cm : CacheMgr) (l : Int)
    (s : Option String) (hg : cm.getRaises = none)
    (hs : storeGet cm.custStore (customersKey l s) = none)
    (hb : gm.getCustomers l = Except.ok []) :
    resolveCustomers ⟨some gm, some cm⟩ l s = ⟨[], some cm, 1, [], []⟩ := by
  simp [resolveCustomers, hg, hs, hb, applyCustomerSearch_nil]

/-- Customer fetch missing the cache, cache `set` raising after a non-empty
backend reply. -/
theorem resolveCustomers_setRaises (gm : GoManageClient) (cm : CacheMgr) (l : Int)
    (s : Option String) (c : CustomerRec) (cs : List CustomerRec) (m : String)
    (hg : cm.getRaises = none)
    (hs : storeGet cm.custStore (customersKey l s) = none)
    (hb : gm.getCustomers l = Except.ok (c :: cs)) (hst : cm.setRaises = some m) :
    resolveCustomers ⟨some gm, some cm⟩ l s = ⟨[], some cm, 1, [], []⟩ := by
  simp [resolveCustomers, hg, hs, hb, hst]

/-- Customer fetch missing the cache and populating it: one backend call,
one `set` of the unfiltered reply with TTL 3600. -/
theorem resolveCustomers_miss_ok (gm : GoManageClient) (cm : CacheMgr) (l : Int)
    (s : Option String) (c : CustomerRec) (cs : List CustomerRec)
    (hg : cm.getRaises = none) (hst : cm.setRaises = none)
    (hs : storeGet cm.custStore (customersKey l s) = none)
    (hb : gm.getCustomers l = Except.ok (c :: cs)) :
    resolveCustomers ⟨some gm, some cm⟩ l s
      = ⟨applyCustomerSearch s (c :: cs),
         some ⟨storeSet cm.custStore (customersKey l s) (c :: cs), cm.prodStore,
               cm.invStore, cm.getRaises, cm.setRaises, cm.deleteRaises⟩,
         1, [(customersKey l s, c :: cs, 3600)], []⟩ := by
  simp [resolveCustomers, hg, hs, hb, hst]

/-- Product fetch without a backend client. -/
theorem resolveProducts_noClient (c : Option CacheMgr) (l : Int) (s : Option String) :
    resolveProducts ⟨none, c⟩ l s = ⟨[], c, 0, [], []⟩ := rfl

/-- Product fetch without a cache, backend answering. -/
theorem resolveProducts_noCache_ok (gm : GoManageClient) (l : Int)
    (s : Option String) (v : List ProductRec) (hb : gm.getProducts l = Except.ok v) :
    resolveProducts ⟨some gm, none⟩ l s = ⟨applyProductSearch s v, none, 1, [], []⟩ := by
  simp [resolveProducts, hb]

/-- Product fetch hitting a non-empty cached entry. -/
theorem resolveProducts_hit (gm : GoManageClient) (cm : CacheMgr) (l : Int)
    (s : Option String) (p : ProductRec) (ps : List ProductRec)
    (hg : cm.getRaises = none)
    (hs : storeGet cm.prodStore (productsKey l s) = some (p :: ps)) :
    resolveProducts ⟨some gm, some cm⟩ l s
      = ⟨applyProductSearch s (p :: ps), some cm, 0, [], []⟩ := by
  simp [resolveProducts, hg, hs]

/-- Product fetch missing the cache, backend returning the empty list. -/
theorem resolveProducts_miss_empty (gm : GoManageClient) (cm : CacheMgr) (l : Int)
    (s : Option String) (hg : cm.getRaises = none)
    (hs : storeGet cm.prodStore (productsKey l s) = none)
    (hb : gm.getProducts l = Except.ok []) :
    resolveProducts ⟨some gm, some cm⟩ l s = ⟨[], some cm, 1, [], []⟩ := by
  simp [resolveProducts, hg, hs, hb, applyProductSearch_nil]

/-- Product fetch missing the cache and populating it with TTL 7200. -/
theorem resolveProducts_miss_ok (gm : GoManageClient) (cm : CacheMgr) (l : Int)
    (s : Option String) (p : ProductRec) (ps : List ProductRec)
    (hg : cm.getRaises = none) (hst : cm.setRaises = none)
    (hs : storeGet cm.prodStore (productsKey l s) = none)
    (hb : gm.getProducts l = Except.ok (p :: ps)) :
    resolveProducts ⟨some gm, some cm⟩ l s
      = ⟨applyProductSearch s (p :: ps),
         some ⟨cm.custStore, storeSet cm.prodStore (productsKey l s) (p :: ps),
               cm.invStore, cm.getRaises, cm.setRaises, cm.deleteRaises⟩,
         1, [(productsKey l s, p :: ps, 7200)], []⟩ := by
  simp [resolveProducts, hg, hs, hb, hst]

/-- Invoice fetch hitting a non-empty cached entry. -/
theorem resolveInvoices_hit (gm : GoManageClient) (cm : CacheMgr) (l : Int)
    (d : Option String) (i : InvoiceRec) (invs : List InvoiceRec)
    (hg : cm.getRaises = none)
    (hs : storeGet cm.invStore (invoicesKey l d) = some (i :: invs)) :
    resolveInvoices ⟨some gm, some cm⟩ l d = ⟨i :: invs, some cm, 0, [], []⟩ := by
  simp [resolveInvoices, hg, hs]

/-- Invoice fetch missing the cache, backend returning the empty list. -/
theorem resolveInvoices_miss_empty (gm : GoManageClient) (cm : CacheMgr) (l : Int)
    (d : Option String) (hg : cm.getRaises = none)
    (hs : storeGet cm.invStore (invoicesKey l d) = none)
    (hb : gm.getInvoices l d = Except.ok []) :
    resolveInvoices ⟨some gm, some cm⟩ l d = ⟨[], some cm, 1, [], []⟩ := by
  simp [resolveInvoices, hg, hs, hb]

/-- Invoice fetch missing the cache and populating it with TTL 1800. -/
theorem resolveInvoices_miss_ok (gm : GoManageClient) (cm : CacheMgr) (l : Int)
    (d : Option String) (i : InvoiceRec) (invs : List InvoiceRec)
    (hg : cm.getRaises = none) (hst : cm.setRaises = none)
    (hs : storeGet cm.invStore (invoicesKey l d) = none)
    (hb : gm.getInvoices l d = Except.ok (i :: invs)) :
    resolveInvoices ⟨some gm, some cm⟩ l d
      = ⟨i :: invs,
         some ⟨cm.custStore, cm.prodStore,
               storeSet cm.invStore (invoicesKey l d) (i :: invs),
               cm.getRaises, cm.setRaises, cm.deleteRaises⟩,
         1, [(invoicesKey l d, i :: invs, 1800)], []⟩ := by
  simp [resolveInvoices, hg, hs, hb, hst]

/-- Effect characterization of a customer fetch that misses the cache (no
cached entry, or a falsy empty cached entry): either the cache manager is
unchanged with no `set`, or the call performed exactly one `set` storing the
raw non-empty backend reply under the derived key with TTL 3600. -/
theorem resolveCustomers_miss_effects (gm : GoManageClient) (cm : CacheMgr)
    (l : Int) (s : Option String) (hg : cm.getRaises = none)
    (hs : storeGet cm.custStore (customersKey l s) = none ∨
          storeGet cm.custStore (customersKey l s) = some []) :
    (resolveCustomers ⟨some gm, some cm⟩ l s).deleteOps = [] ∧
    (((resolveCustomers ⟨some gm, some cm⟩ l s).cacheAfter = some cm ∧
      (resolveCustomers ⟨some gm, some cm⟩ l s).setOps = []) ∨
     (∃ c cs, gm.getCustomers l = Except.ok (c :: cs) ∧
       (resolveCustomers ⟨some gm, some cm⟩ l s).setOps
          = [(customersKey l s, c :: cs, 3600)] ∧
       (resolveCustomers ⟨some gm, some cm⟩ l s).cacheAfter =
         some ⟨storeSet cm.custStore (customersKey l s) (c :: cs), cm.prodStore,
               cm.invStore, cm.getRaises, cm.setRaises, cm.deleteRaises⟩)) := by
  cases hb : gm.getCustomers l with
  | error e =>
    have he : resolveCustomers ⟨some gm, some cm⟩ l s = ⟨[], some cm, 1, [], []⟩ := by
      rcases hs with hs | hs <;> simp [resolveCustomers, hg, hs, hb]
    rw [he]; exact ⟨rfl, Or.inl ⟨rfl, rfl⟩⟩
  | ok v =>
    cases v with
    | nil =>
      have he : resolveCustomers ⟨some gm, some cm⟩ l s = ⟨[], some cm, 1, [], []⟩ := by
        rcases hs with hs | hs <;>
          simp [resolveCustomers, hg, hs, hb, applyCustomerSearch_nil]
      rw [he]; exact ⟨rfl, Or.inl ⟨rfl, rfl⟩⟩
    | cons c0 cs0 =>
      cases hst : cm.setRaises with
      | some m =>
        have he : resolveCustomers ⟨some gm, some cm⟩ l s = ⟨[], some cm, 1, [], []⟩ := by
          rcases hs with hs | hs <;> simp [resolveCustomers, hg, hs, hb, hst]
        rw [he]; exact ⟨rfl, Or.inl ⟨rfl, rfl⟩⟩
      | none =>
        have he : resolveCustomers ⟨some gm, some cm⟩ l s
            = ⟨applyCustomerSearch s (c0 :: cs0),
               some ⟨storeSet cm.custStore (customersKey l s) (c0 :: cs0),
                     cm.prodStore, cm.invStore, cm.getRaises, cm.setRaises,
                     cm.deleteRaises⟩,
               1, [(customersKey l s, c0 :: cs0, 3600)], []⟩ := by
          rcases hs with hs | hs <;> simp [resolveCustomers, hg, hs, hb, hst]
        rw [he]; exact ⟨rfl, Or.inr ⟨c0, cs0, rfl, rfl, by rw [hst]⟩⟩

/-- Effect characterization of an arbitrary customer fetch: it never calls
`delete`, and it either leaves the cache manager untouched performing no
`set`, or performs exactly one `set` storing the raw non-empty backend reply
under the derived key with TTL 3600. -/
theorem resolveCustomers_effects (ctx : Context) (l : Int) (s : Option String) :
    (resolveCustomers ctx l s).deleteOps = [] ∧
    (((resolveCustomers ctx l s).cacheAfter = ctx.cache_manager ∧
      (resolveCustomers ctx l s).setOps = []) ∨
     (∃ gm cm c cs, ctx.gomanage_client = some gm ∧ ctx.cache_manager = some cm ∧
       gm.getCustomers l = Except.ok (c :: cs) ∧
       (resolveCustomers ctx l s).setOps = [(customersKey l s, c :: cs, 3600)] ∧
       (resolveCustomers ctx l s).cacheAfter =
         some ⟨storeSet cm.custStore (customersKey l s) (c :: cs), cm.prodStore,
               cm.invStore, cm.getRaises, cm.setRaises, cm.deleteRaises⟩)) := by
  rcases ctx with ⟨g, c⟩
  cases g with
  | none => exact ⟨rfl, Or.inl ⟨rfl, rfl⟩⟩
  | some gm =>
    cases c with
    | none =>
      cases hb : gm.getCustomers l with
      | error e =>
        rw [resolveCustomers_noCache_err gm l s e hb]
        exact ⟨rfl, Or.inl ⟨rfl, rfl⟩⟩
      | ok v =>
        rw [resolveCustomers_noCache_ok gm l s v hb]
        exact ⟨rfl, Or.inl ⟨rfl, rfl⟩⟩
    | some cm =>
      cases hg : cm.getRaises with
      | some m =>
        rw [resolveCustomers_getRaises gm cm l s m hg]
        exact ⟨rfl, Or.inl ⟨rfl, rfl⟩⟩
      | none =>
        cases hs : storeGet cm.custStore (customersKey l s) with
        | none =>
          rcases resolveCustomers_miss_effects gm cm l s hg (Or.inl hs) with
            ⟨h1, h2 | ⟨c0, cs0, hb, hso, hca⟩⟩
          · exact ⟨h1, Or.inl h2⟩
          · exact ⟨h1, Or.inr ⟨gm, cm, c0, cs0, rfl, rfl, hb, hso, hca⟩⟩
        | some v0 =>
          cases v0 with
          | nil =>
            rcases resolveCustomers_miss_effects gm cm l s hg (Or.inr hs) with
              ⟨h1, h2 | ⟨c0, cs0, hb, hso, hca⟩⟩
            · exact ⟨h1, Or.inl h2⟩
            · exact ⟨h1, Or.inr ⟨gm, cm, c0, cs0, rfl, rfl, hb, hso, hca⟩⟩
          | cons c0 cs0 =>
            rw [resolveCustomers_hit gm cm l s c0 cs0 hg hs]
            exact ⟨rfl, Or.inl ⟨rfl, rfl⟩⟩

/-- Effect characterization of a product fetch that misses the cache. -/
theorem resolveProducts_miss_effects (gm : GoManageClient) (cm : CacheMgr)
    (l : Int) (s : Option String) (hg : cm.getRaises = none)
    (hs : storeGet cm.prodStore (productsKey l s) = none ∨
          storeGet cm.prodStore (productsKey l s) = some []) :
    (resolveProducts ⟨some gm, some cm⟩ l s).deleteOps = [] ∧
    (((resolveProducts ⟨some gm, some cm⟩ l s).cacheAfter = some cm ∧
      (resolveProducts ⟨some gm, some cm⟩ l s).setOps = []) ∨
     (∃ p ps, gm.getProducts l = Except.ok (p :: ps) ∧
       (resolveProducts ⟨some gm, some cm⟩ l s).setOps
          = [(productsKey l s, p :: ps, 7200)] ∧
       (resolveProducts ⟨some gm, some cm⟩ l s).cacheAfter =
         some ⟨cm.custStore, storeSet cm.prodStore (productsKey l s) (p :: ps),
               cm.invStore, cm.getRaises, cm.setRaises, cm.deleteRaises⟩)) := by
  cases hb : gm.getProducts l with
  | error e =>
    have he : resolveProducts ⟨some gm, some cm⟩ l s = ⟨[], some cm, 1, [], []⟩ := by
      rcases hs with hs | hs <;> simp [resolveProducts, hg, hs, hb]
    rw [he]; exact ⟨rfl, Or.inl ⟨rfl, rfl⟩⟩
  | ok v =>
    cases v with
    | nil =>
      have he : resolveProducts ⟨some gm, some cm⟩ l s = ⟨[], some cm, 1, [], []⟩ := by
        rcases hs with hs | hs <;>
          simp [resolveProducts, hg, hs, hb, applyProductSearch_nil]
      rw [he]; exact ⟨rfl, Or.inl ⟨rfl, rfl⟩⟩
    | cons p0 ps0 =>
      cases hst : cm.setRaises with
      | some m =>
        have he : resolveProducts ⟨some gm, some cm⟩ l s = ⟨[], some cm, 1, [], []⟩ := by
          rcases hs with hs | hs <;> simp [resolveProducts, hg, hs, hb, hst]
        rw [he]; exact ⟨rfl, Or.inl ⟨rfl, rfl⟩⟩
      | none =>
        have he : resolveProducts ⟨some gm, some cm⟩ l s
            = ⟨applyProductSearch s (p0 :: ps0),
               some ⟨cm.custStore, storeSet cm.prodStore (productsKey l s) (p0 :: ps0),
                     cm.invStore, cm.getRaises, cm.setRaises, cm.deleteRaises⟩,
               1, [(productsKey l s, p0 :: ps0, 7200)], []⟩ := by
          rcases hs with hs | hs <;> simp [resolveProducts, hg, hs, hb, hst]
        rw [he]; exact ⟨rfl, Or.inr ⟨p0, ps0, rfl, rfl, by rw [hst]⟩⟩

/-- Effect characterization of an arbitrary product fetch. -/
theorem resolveProducts_effects (ctx : Context) (l : Int) (s : Option String) :
    (resolveProducts ctx l s).deleteOps = [] ∧
    (((resolveProducts ctx l s).cacheAfter = ctx.cache_manager ∧
      (resolveProducts ctx l s).setOps = []) ∨
     (∃ gm cm p ps, ctx.gomanage_client = some gm ∧ ctx.cache_manager = some cm ∧
       gm.getProducts l = Except.ok (p :: ps) ∧
       (resolveProducts ctx l s).setOps = [(productsKey l s, p :: ps, 7200)] ∧
       (resolveProducts ctx l s).cacheAfter =
         some ⟨cm.custStore, storeSet cm.prodStore (productsKey l s) (p :: ps),
               cm.invStore, cm.getRaises, cm.setRaises, cm.deleteRaises⟩)) := by
  rcases ctx with ⟨g, c⟩
  cases g with
  | none => exact ⟨rfl, Or.inl ⟨rfl, rfl⟩⟩
  | some gm =>
    cases c with
    | none =>
      cases hb : gm.getProducts l with
      | error e =>
        have he : resolveProducts ⟨some gm, none⟩ l s = ⟨[], none, 1, [], []⟩ := by
          simp [resolveProducts, hb]
        rw [he]; exact ⟨rfl, Or.inl ⟨rfl, rfl⟩⟩
      | ok v =>
        rw [resolveProducts_noCache_ok gm l s v hb]
        exact ⟨rfl, Or.inl ⟨rfl, rfl⟩⟩
    | some cm =>
      cases hg : cm.getRaises with
      | some m =>
        have he : resolveProducts ⟨some gm, some cm⟩ l s = ⟨[], some cm, 0, [], []⟩ := by
          simp [resolveProducts, hg]
        rw [he]; exact ⟨rfl, Or.inl ⟨rfl, rfl⟩⟩
      | none =>
        cases hs : storeGet cm.prodStore (productsKey l s) with
        | none =>
          rcases resolveProducts_miss_effects gm cm l s hg (Or.inl hs) with
            ⟨h1, h2 | ⟨p0, ps0, hb, hso, hca⟩⟩
          · exact ⟨h1, Or.inl h2⟩
          · exact ⟨h1, Or.inr ⟨gm, cm, p0, ps0, rfl, rfl, hb, hso, hca⟩⟩
        | some v0 =>
          cases v0 with
          | nil =>
            rcases resolveProducts_miss_effects gm cm l s hg (Or.inr hs) with
              ⟨h1, h2 | ⟨p0, ps0, hb, hso, hca⟩⟩
            · exact ⟨h1, Or.inl h2⟩
            · exact ⟨h1, Or.inr ⟨gm, cm, p0, ps0, rfl, rfl, hb, hso, hca⟩⟩
          | cons p0 ps0 =>
            rw [resolveProducts_hit gm cm l s p0 ps0 hg hs]
            exact ⟨rfl, Or.inl ⟨rfl, rfl⟩⟩

/-- Effect characterization of an invoice fetch that misses the cache. -/
theorem resolveInvoices_miss_effects (gm : GoManageClient) (cm : CacheMgr)
    (l : Int) (d : Option String) (hg : cm.getRaises = none)
    (hs : storeGet cm.invStore (invoicesKey l d) = none ∨
          storeGet cm.invStore (invoicesKey l d) = some []) :
    (resolveInvoices ⟨some gm, some cm⟩ l d).deleteOps = [] ∧
    (((resolveInvoices ⟨some gm, some cm⟩ l d).cacheAfter = some cm ∧
      (resolveInvoices ⟨some gm, some cm⟩ l d).setOps = []) ∨
     (∃ i invs, gm.getInvoices l d = Except.ok (i :: invs) ∧
       (resolveInvoices ⟨some gm, some cm⟩ l d).setOps
          = [(invoicesKey l d, i :: invs, 1800)] ∧
       (resolveInvoices ⟨some gm, some cm⟩ l d).cacheAfter =
         some ⟨cm.custStore, cm.prodStore,
               storeSet cm.invStore (invoicesKey l d) (i :: invs),
               cm.getRaises, cm.setRaises, cm.deleteRaises⟩)) := by
  cases hb : gm.getInvoices l d with
  | error e =>
    have he : resolveInvoices ⟨some gm, some cm⟩ l d = ⟨[], some cm, 1, [], []⟩ := by
      rcases hs with hs | hs <;> simp [resolveInvoices, hg, hs, hb]
    rw [he]; exact ⟨rfl, Or.inl ⟨rfl, rfl⟩⟩
  | ok v =>
    cases v with
    | nil =>
      have he : resolveInvoices ⟨some gm, some cm⟩ l d = ⟨[], some cm, 1, [], []⟩ := by
        rcases hs with hs | hs <;> simp [resolveInvoices, hg, hs, hb]
      rw [he]; exact ⟨rfl, Or.inl ⟨rfl, rfl⟩⟩
    | cons i0 invs0 =>
      cases hst : cm.setRaises with
      | some m =>
        have he : resolveInvoices ⟨some gm, some cm⟩ l d = ⟨[], some cm, 1, [], []⟩ := by
          rcases hs with hs | hs <;> simp [resolveInvoices, hg, hs, hb, hst]
        rw [he]; exact ⟨rfl, Or.inl ⟨rfl, rfl⟩⟩
      | none =>
        have he : resolveInvoices ⟨some gm, some cm⟩ l d
            = ⟨i0 :: invs0,
               some ⟨cm.custStore, cm.prodStore,
                     storeSet cm.invStore (invoicesKey l d) (i0 :: invs0),
                     cm.getRaises, cm.setRaises, cm.deleteRaises⟩,
               1, [(invoicesKey l d, i0 :: invs0, 1800)], []⟩ := by
          rcases hs with hs | hs <;> simp [resolveInvoices, hg, hs, hb, hst]
        rw [he]; exact ⟨rfl, Or.inr ⟨i0, invs0, rfl, rfl, by rw [hst]⟩⟩

/-- Effect characterization of an arbitrary invoice fetch. -/
theorem resolveInvoices_effects (ctx : Context) (l : Int) (d : Option String) :
    (resolveInvoices ctx l d).deleteOps = [] ∧
    (((resolveInvoices ctx l d).cacheAfter = ctx.cache_manager ∧
      (resolveInvoices ctx l d).setOps = []) ∨
     (∃ gm cm i invs, ctx.gomanage_client = some gm ∧ ctx.cache_manager = some cm ∧
       gm.getInvoices l d = Except.ok (i :: invs) ∧
       (resolveInvoices ctx l d).setOps = [(invoicesKey l d, i :: invs, 1800)] ∧
       (resolveInvoices ctx l d).cacheAfter =
         some ⟨cm.custStore, cm.prodStore,
               storeSet cm.invStore (invoicesKey l d) (i :: invs),
               cm.getRaises, cm.setRaises, cm.deleteRaises⟩)) := by
  rcases ctx with ⟨g, c⟩
  cases g with
  | none => exact ⟨rfl, Or.inl ⟨rfl, rfl⟩⟩
  | some gm =>
    cases c with
    | none =>
      cases hb : gm.getInvoices l d with
      | error e =>
        have he : resolveInvoices ⟨some gm, none⟩ l d = ⟨[], none, 1, [], []⟩ := by
          simp [resolveInvoices, hb]
        rw [he]; exact ⟨rfl, Or.inl ⟨rfl, rfl⟩⟩
      | ok v =>
        have he : resolveInvoices ⟨some gm, none⟩ l d = ⟨v, none, 1, [], []⟩ := by
          simp [resolveInvoices, hb]
        rw [he]; exact ⟨rfl, Or.inl ⟨rfl, rfl⟩⟩
    | some cm =>
      cases hg : cm.getRaises with
      | some m =>
        have he : resolveInvoices ⟨some gm, some cm⟩ l d = ⟨[], some cm, 0, [], []⟩ := by
          simp [resolveInvoices, hg]
        rw [he]; exact ⟨rfl, Or.inl ⟨rfl, rfl⟩⟩
      | none =>
        cases hs : storeGet cm.invStore (invoicesKey l d) with
        | none =>
          rcases resolveInvoices_miss_effects gm cm l d hg (Or.inl hs) with
            ⟨h1, h2 | ⟨i0, invs0, hb, hso, hca⟩⟩
          · exact ⟨h1, Or.inl h2⟩
          · exact ⟨h1, Or.inr ⟨gm, cm, i0, invs0, rfl, rfl, hb, hso, hca⟩⟩
        | some v0 =>
          cases v0 with
          | nil =>
            rcases resolveInvoices_miss_effects gm cm l d hg (Or.inr hs) with
              ⟨h1, h2 | ⟨i0, invs0, hb, hso, hca⟩⟩
            · exact ⟨h1, Or.inl h2⟩
            · exact ⟨h1, Or.inr ⟨gm, cm, i0, invs0, rfl, rfl, hb, hso, hca⟩⟩
          | cons i0 invs0 =>
            rw [resolveInvoices_hit gm cm l d i0 invs0 hg hs]
            exact ⟨rfl, Or.inl ⟨rfl, rfl⟩⟩

/-- Claim C1: for every resource class, a fetch with an empty cache store
triggers exactly one backend call and, the backend result being non-empty,
exactly one cache `set` storing that result under the derived key with the
class TTL (Customer 3600 s, Product 7200 s, Invoice 1800 s); a second fetch
with identical (class, limit, term) triggers zero backend calls and returns
the identical record sequence. -/
theorem claim_C1 (gm : GoManageClient) (lc lp li : Int) (sc sp dd : Option String)
    (vc : List CustomerRec) (vp : List ProductRec) (vi : List InvoiceRec)
    (hc : gm.getCustomers lc = Except.ok vc) (hc0 : vc ≠ [])
    (hp : gm.getProducts lp = Except.ok vp) (hp0 : vp ≠ [])
    (hi : gm.getInvoices li dd = Except.ok vi) (hi0 : vi ≠ []) :
    ((resolveCustomers ⟨some gm, some emptyCache⟩ lc sc).backendCalls = 1 ∧
     (resolveCustomers ⟨some gm, some emptyCache⟩ lc sc).setOps
        = [(customersKey lc sc, vc, 3600)] ∧
     (resolveCustomers ⟨some gm,
        (resolveCustomers ⟨some gm, some emptyCache⟩ lc sc).cacheAfter⟩ lc sc).backendCalls
        = 0 ∧
     (resolveCustomers ⟨some gm,
        (resolveCustomers ⟨some gm, some emptyCache⟩ lc sc).cacheAfter⟩ lc sc).result
        = (resolveCustomers ⟨some gm, some emptyCache⟩ lc sc).result) ∧
    ((resolveProducts ⟨some gm, some emptyCache⟩ lp sp).backendCalls = 1 ∧
     (resolveProducts ⟨some gm, some emptyCache⟩ lp sp).setOps
        = [(productsKey lp sp, vp, 7200)] ∧
     (resolveProducts ⟨some gm,
        (resolveProducts ⟨some gm, some emptyCache⟩ lp sp).cacheAfter⟩ lp sp).backendCalls
        = 0 ∧
     (resolveProducts ⟨some gm,
        (resolveProducts ⟨some gm, some emptyCache⟩ lp sp).cacheAfter⟩ lp sp).result
        = (resolveProducts ⟨some gm, some emptyCache⟩ lp sp).result) ∧
    ((resolveInvoices ⟨some gm, some emptyCache⟩ li dd).backendCalls = 1 ∧
     (resolveInvoices ⟨some gm, some emptyCache⟩ li dd).setOps
        = [(invoicesKey li dd, vi, 1800)] ∧
     (resolveInvoices ⟨some gm,
        (resolveInvoices ⟨some gm, some emptyCache⟩ li dd).cacheAfter⟩ li dd).backendCalls
        = 0 ∧
     (resolveInvoices ⟨some gm,
        (resolveInvoices ⟨some gm, some emptyCache⟩ li dd).cacheAfter⟩ li dd).result
        = (resolveInvoices ⟨some gm, some emptyCache⟩ li dd).result) := by
  refine ⟨?_, ?_, ?_⟩
  · cases vc with
    | nil => cases hc0 rfl
    | cons c cs =>
      have h1 := resolveCustomers_miss_ok gm emptyCache lc sc c cs rfl rfl rfl hc
      have h2 := resolveCustomers_hit gm
        ⟨storeSet emptyCache.custStore (customersKey lc sc) (c :: cs),
         emptyCache.prodStore, emptyCache.invStore, emptyCache.getRaises,
         emptyCache.setRaises, emptyCache.deleteRaises⟩ lc sc c cs rfl
        (storeGet_storeSet_self _ _ _)
      simp [h1, h2]
  · cases vp with
    | nil => cases hp0 rfl
    | cons p ps =>
      have h1 := resolveProducts_miss_ok gm emptyCache lp sp p ps rfl rfl rfl hp
      have h2 := resolveProducts_hit gm
        ⟨emptyCache.custStore, storeSet emptyCache.prodStore (productsKey lp sp) (p :: ps),
         emptyCache.invStore, emptyCache.getRaises,
         emptyCache.setRaises, emptyCache.deleteRaises⟩ lp sp p ps rfl
        (storeGet_storeSet_self _ _ _)
      simp [h1, h2]
  · cases vi with
    | nil => cases hi0 rfl
    | cons i invs =>
      have h1 := resolveInvoices_miss_ok gm emptyCache li dd i invs rfl rfl rfl hi
      have h2 := resolveInvoices_hit gm
        ⟨emptyCache.custStore, emptyCache.prodStore,
         storeSet emptyCache.invStore (invoicesKey li dd) (i :: invs),
         emptyCache.getRaises, emptyCache.setRaises, emptyCache.deleteRaises⟩ li dd i invs rfl
        (storeGet_storeSet_self _ _ _)
      simp [h1, h2]

/-- Witness for C1 at a concrete backend, store and parameters. -/
theorem claim_C1_witness :
    (resolveCustomers ⟨some sampleClient, some emptyCache⟩ 10 none).backendCalls = 1 ∧
    (resolveCustomers ⟨some sampleClient,
       (resolveCustomers ⟨some sampleClient, some emptyCache⟩ 10 none).cacheAfter⟩
       10 none).backendCalls = 0 ∧
    (resolveInvoices ⟨some sampleClient, some emptyCache⟩ 30 none).setOps
      = [(invoicesKey 30 none, [sampleInvoice], 1800)] := by
  have h := claim_C1 sampleClient 10 20 30 none none none
    [sampleCustomer, sampleCustomer2] [sampleProduct, sampleProduct2] [sampleInvoice]
    rfl (by decide) rfl (by decide) rfl (by decide)
  exact ⟨h.1.1, h.1.2.2.1, h.2.2.2.1⟩

/-- Claim C3: with the filter term set and a non-empty working set, fetch
returns exactly the records whose designated searchable fields contain the
term case-insensitively (OR semantics; Customer: business_name, vat_number,
string-cast customer_id; Product: reference, description), and a
case-variant of the term yields the identical result set. -/
theorem claim_C3 (gm : GoManageClient) (l : Int) (t t' : String)
    (wc : List CustomerRec) (wp : List ProductRec)
    (ht : t ≠ "") (ht' : t' ≠ "") (hlow : pyLower t = pyLower t')
    (hgc : gm.getCustomers l = Except.ok wc) (hwc : wc ≠ [])
    (hgp : gm.getProducts l = Except.ok wp) (hwp : wp ≠ []) :
    (resolveCustomers ⟨some gm, none⟩ l (some t)).result
        = wc.filter (customerMatch (pyLower t)) ∧
    (∀ c : CustomerRec, customerMatch (pyLower t) c = true ↔
        ((pyLower t).data <:+: (pyLower (c.business_name.getD "")).data ∨
         (pyLower t).data <:+: (pyLower (c.vat_number.getD "")).data ∨
         (pyLower t).data <:+: (pyLower (pyStr c.customer_id)).data)) ∧
    (resolveProducts ⟨some gm, none⟩ l (some t)).result
        = wp.filter (productMatch (pyLower t)) ∧
    (∀ p : ProductRec, productMatch (pyLower t) p = true ↔
        ((pyLower t).data <:+: (pyLower (p.reference.getD "")).data ∨
         (pyLower t).data <:+: (pyLower (p.description.getD "")).data)) ∧
    (resolveCustomers ⟨some gm, none⟩ l (some t')).result
        = (resolveCustomers ⟨some gm, none⟩ l (some t)).result ∧
    (resolveProducts ⟨some gm, none⟩ l (some t')).result
        = (resolveProducts ⟨some gm, none⟩ l (some t)).result := by
  have hec := resolveCustomers_noCache_ok gm l (some t) wc hgc
  have hec' := resolveCustomers_noCache_ok gm l (some t') wc hgc
  have hep := resolveProducts_noCache_ok gm l (some t) wp hgp
  have hep' := resolveProducts_noCache_ok gm l (some t') wp hgp
  refine ⟨?_, ?_, ?_, ?_, ?_, ?_⟩
  · rw [hec]; simp [applyCustomerSearch, ht, hwc]
  · intro c; simp [customerMatch, pyIn, or_assoc]
  · rw [hep]; simp [applyProductSearch, ht, hwp]
  · intro p; simp [productMatch, pyIn, or_assoc]
  · rw [hec, hec']
    simp [applyCustomerSearch, ht, ht', hwc, hlow]
  · rw [hep, hep']
    simp [applyProductSearch, ht, ht', hwp, hlow]

/-- Witness for C3: the terms `ABC` and `abc` filter the sample product
listing to the same single matching record. -/
theorem claim_C3_witness :
    (resolveProducts ⟨some sampleClient, none⟩ 100 (some "ABC")).result
        = [sampleProduct] ∧
    (resolveProducts ⟨some sampleClient, none⟩ 100 (some "abc")).result
        = (resolveProducts ⟨some sampleClient, none⟩ 100 (some "ABC")).result := by
  have h := claim_C3 sampleClient 100 "ABC" "abc"
    [sampleCustomer, sampleCustomer2] [sampleProduct, sampleProduct2]
    (by decide) (by decide) (by decide) rfl (by decide) rfl (by decide)
  refine ⟨?_, h.2.2.2.2.2⟩
  rw [h.2.2.1]
  decide

/-- Claim C5: a backend fetch returning the empty sequence does not populate
the cache, so a subsequent identical fetch invokes the backend again (no
negative caching), for every resource class. -/
theorem claim_C5 (gm : GoManageClient) (cm : CacheMgr) (lc lp li : Int)
    (sc sp dd : Option String) (hg : cm.getRaises = none)
    (hsc : storeGet cm.custStore (customersKey lc sc) = none)
    (hbc : gm.getCustomers lc = Except.ok [])
    (hsp : storeGet cm.prodStore (productsKey lp sp) = none)
    (hbp : gm.getProducts lp = Except.ok [])
    (hsi : storeGet cm.invStore (invoicesKey li dd) = none)
    (hbi : gm.getInvoices li dd = Except.ok []) :
    ((resolveCustomers ⟨some gm, some cm⟩ lc sc).backendCalls = 1 ∧
     (resolveCustomers ⟨some gm, some cm⟩ lc sc).setOps = [] ∧
     (resolveCustomers ⟨some gm, some cm⟩ lc sc).cacheAfter = some cm ∧
     (resolveCustomers ⟨some gm, some cm⟩ lc sc).result = [] ∧
     (resolveCustomers ⟨some gm,
        (resolveCustomers ⟨some gm, some cm⟩ lc sc).cacheAfter⟩ lc sc).backendCalls = 1) ∧
    ((resolveProducts ⟨some gm, some cm⟩ lp sp).backendCalls = 1 ∧
     (resolveProducts ⟨some gm, some cm⟩ lp sp).setOps = [] ∧
     (resolveProducts ⟨some gm, some cm⟩ lp sp).cacheAfter = some cm ∧
     (resolveProducts ⟨some gm, some cm⟩ lp sp).result = [] ∧
     (resolveProducts ⟨some gm,
        (resolveProducts ⟨some gm, some cm⟩ lp sp).cacheAfter⟩ lp sp).backendCalls = 1) ∧
    ((resolveInvoices ⟨some gm, some cm⟩ li dd).backendCalls = 1 ∧
     (resolveInvoices ⟨some gm, some cm⟩ li dd).setOps = [] ∧
     (resolveInvoices ⟨some gm, some cm⟩ li dd).cacheAfter = some cm ∧
     (resolveInvoices ⟨some gm, some cm⟩ li dd).result = [] ∧
     (resolveInvoices ⟨some gm,
        (resolveInvoices ⟨some gm, some cm⟩ li dd).cacheAfter⟩ li dd).backendCalls = 1) := by
  have h1 := resolveCustomers_miss_empty gm cm lc sc hg hsc hbc
  have h2 := resolveProducts_miss_empty gm cm lp sp hg hsp hbp
  have h3 := resolveInvoices_miss_empty gm cm li dd hg hsi hbi
  refine ⟨?_, ?_, ?_⟩
  · simp [h1]
  · simp [h2]
  · simp [h3]

/-- Witness for C5 at a concrete empty-answering backend. -/
theorem claim_C5_witness :
    (resolveCustomers ⟨some emptyClient, some emptyCache⟩ 10 none).setOps = [] ∧
    (resolveCustomers ⟨some emptyClient, some emptyCache⟩ 10 none).cacheAfter
        = some emptyCache ∧
    (resolveCustomers ⟨some emptyClient,
       (resolveCustomers ⟨some emptyClient, some emptyCache⟩ 10 none).cacheAfter⟩
       10 none).backendCalls = 1 := by
  have h := claim_C5 emptyClient emptyCache 10 20 30 none none none
    rfl rfl rfl rfl rfl rfl rfl
  exact ⟨h.1.2.1, h.1.2.2.1, h.1.2.2.2.2⟩

/-- Claim C7: cache-key derivation is the pure function
`prefix_limit_(term or all)` of (class, limit, term-or-date) alone — every
key a resolver ever writes is exactly this function of its own (limit, term)
arguments, whatever the context — and keys from the same term at limits with
distinct renderings are distinct. -/
theorem claim_C7 :
    (∀ l s, customersKey l s = deriveKey "customers" l s) ∧
    (∀ l s, productsKey l s = deriveKey "products" l s) ∧
    (∀ l d, invoicesKey l d = deriveKey "invoices" l d) ∧
    (∀ ctx l s k v ttl, (k, v, ttl) ∈ (resolveCustomers ctx l s).setOps →
      k = customersKey l s) ∧
    (∀ ctx l s k v ttl, (k, v, ttl) ∈ (resolveProducts ctx l s).setOps →
      k = productsKey l s) ∧
    (∀ ctx l d k v ttl, (k, v, ttl) ∈ (resolveInvoices ctx l d).setOps →
      k = invoicesKey l d) ∧
    (∀ pre t, ∀ l1 l2 : Int, toString l1 ≠ toString l2 →
      deriveKey pre l1 t ≠ deriveKey pre l2 t) := by
  refine ⟨fun l s => rfl, fun l s => rfl, fun l d => rfl, ?_, ?_, ?_,
    fun pre t l1 l2 h => deriveKey_limit_ne pre t h⟩
  · intro ctx l s k v ttl hm
    rcases (resolveCustomers_effects ctx l s).2 with ⟨_, hso⟩ | ⟨_, _, _, _, _, _, _, hso, _⟩
    · rw [hso] at hm; cases hm
    · rw [hso] at hm; simp at hm; exact hm.1
  · intro ctx l s k v ttl hm
    rcases (resolveProducts_effects ctx l s).2 with ⟨_, hso⟩ | ⟨_, _, _, _, _, _, _, hso, _⟩
    · rw [hso] at hm; cases hm
    · rw [hso] at hm; simp at hm; exact hm.1
  · intro ctx l d k v ttl hm
    rcases (resolveInvoices_effects ctx l d).2 with ⟨_, hso⟩ | ⟨_, _, _, _, _, _, _, hso, _⟩
    · rw [hso] at hm; cases hm
    · rw [hso] at hm; simp at hm; exact hm.1

/-- Witness for C7: concrete key agreements, a concrete written key, and the
limit-distinctness at 100 versus 200. -/
theorem claim_C7_witness :
    customersKey 100 none = deriveKey "customers" 100 none ∧
    deriveKey "customers" 100 (some "foo") ≠ deriveKey "customers" 200 (some "foo") ∧
    "customers_10_all" = customersKey 10 none := by
  refine ⟨claim_C7.1 100 none,
    claim_C7.2.2.2.2.2.2 "customers" (some "foo") 100 200 (by decide), ?_⟩
  exact claim_C7.2.2.2.1 ⟨some sampleClient, some emptyCache⟩ 10 none
    "customers_10_all" [sampleCustomer, sampleCustomer2] 3600 (by decide)

/-- Claim C8: each by-id resolver returns exactly the result of the
limit-1000, filter-free list fetch scanned linearly for the first record
whose identifier field equals the requested id (`List.find?`), with `none`
when no record of that listing matches; the underlying listing call is the
very `fetch(class, limit 1000, no filter)`. -/
theorem claim_C8 (ctx : Context) (cid iid : Int) (pid : String) :
    ((resolveCustomer ctx cid).record
        = (resolveCustomers ctx 1000 none).result.find?
            (fun c => c.customer_id == some cid) ∧
     (resolveCustomer ctx cid).listOut = resolveCustomers ctx 1000 none) ∧
    ((resolveProduct ctx pid).record
        = (resolveProducts ctx 1000 none).result.find?
            (fun p => p.product_id == some pid) ∧
     (resolveProduct ctx pid).listOut = resolveProducts ctx 1000 none) ∧
    ((resolveInvoice ctx iid).record
        = (resolveInvoices ctx 1000 none).result.find?
            (fun i => i.invoice_id == some iid) ∧
     (resolveInvoice ctx iid).listOut = resolveInvoices ctx 1000 none) ∧
    ((∀ c ∈ (resolveCustomers ctx 1000 none).result, ¬ c.customer_id = some cid) →
      (resolveCustomer ctx cid).record = none) := by
  refine ⟨⟨scanCustomers_eq_find cid _, rfl⟩, ⟨scanProducts_eq_find pid _, rfl⟩,
    ⟨scanInvoices_eq_find iid _, rfl⟩, fun hnone => ?_⟩
  rw [show (resolveCustomer ctx cid).record
      = scanCustomers cid (resolveCustomers ctx 1000 none).result from rfl,
    scanCustomers_eq_find cid _]
  exact List.find?_eq_none.mpr fun c hc => by simpa using hnone c hc

/-- Witness for C8: the sample listing holds customer id 7 but no id 5. -/
theorem claim_C8_witness :
    (resolveCustomer ⟨some sampleClient, none⟩ 7).record = some sampleCustomer ∧
    (resolveCustomer ⟨some sampleClient, none⟩ 5).record = none := by
  have h1 := (claim_C8 ⟨some sampleClient, none⟩ 7 42 "P1").1.1
  have h2 := (claim_C8 ⟨some sampleClient, none⟩ 5 42 "P1").2.2.2
  exact ⟨by rw [h1]; rfl, h2 (by decide)⟩

/-- Claim C4: a create whose backend call succeeds deletes the two default
customer-listing keys from the store and reports success; a create whose
backend call fails (falsy result or exception) reports `success=false` with
a message, performs no deletion and leaves the store unchanged. -/
theorem claim_C4 (gm : GoManageClient) (cm : CacheMgr) (bn vn : String)
    (kw : CreateKwargs) (e : String) (hdel : cm.deleteRaises = none) :
    (gm.createCustomer (buildCustomerData bn vn kw) = Except.ok true →
      ∃ cm', (createCustomerMutate ⟨some gm, some cm⟩ bn vn kw).cacheAfter = some cm' ∧
        storeGet cm'.custStore "customers_100_all" = none ∧
        storeGet cm'.custStore "customers_1000_all" = none ∧
        (createCustomerMutate ⟨some gm, some cm⟩ bn vn kw).payload.success = true ∧
        (createCustomerMutate ⟨some gm, some cm⟩ bn vn kw).deleteOps
          = ["customers_100_all", "customers_1000_all"]) ∧
    (gm.createCustomer (buildCustomerData bn vn kw) = Except.ok false →
      (createCustomerMutate ⟨some gm, some cm⟩ bn vn kw).payload.success = false ∧
      (createCustomerMutate ⟨some gm, some cm⟩ bn vn kw).payload.message
        = "Error creando cliente en GoManage" ∧
      (createCustomerMutate ⟨some gm, some cm⟩ bn vn kw).cacheAfter = some cm ∧
      (createCustomerMutate ⟨some gm, some cm⟩ bn vn kw).deleteOps = []) ∧
    (gm.createCustomer (buildCustomerData bn vn kw) = Except.error e →
      (createCustomerMutate ⟨some gm, some cm⟩ bn vn kw).payload.success = false ∧
      (createCustomerMutate ⟨some gm, some cm⟩ bn vn kw).payload.message = "Error: " ++ e ∧
      (createCustomerMutate ⟨some gm, some cm⟩ bn vn kw).cacheAfter = some cm ∧
      (createCustomerMutate ⟨some gm, some cm⟩ bn vn kw).deleteOps = []) := by
  refine ⟨fun hok => ?_, fun hf => ?_, fun he => ?_⟩
  · have hm : createCustomerMutate ⟨some gm, some cm⟩ bn vn kw
        = ⟨⟨some (buildCustomerData bn vn kw), true, "Cliente creado exitosamente"⟩,
           some ⟨storeDelete (storeDelete cm.custStore "customers_100_all")
                   "customers_1000_all",
                 cm.prodStore, cm.invStore, cm.getRaises, cm.setRaises, cm.deleteRaises⟩,
           1, ["customers_100_all", "customers_1000_all"]⟩ := by
      simp [createCustomerMutate, hok, hdel]
    rw [hm]
    refine ⟨_, rfl, ?_, ?_, rfl, rfl⟩
    · rw [storeGet_storeDelete_ne _ (by decide)]
      exact storeGet_storeDelete_self _ _
    · exact storeGet_storeDelete_self _ _
  · have hm : createCustomerMutate ⟨some gm, some cm⟩ bn vn kw
        = ⟨⟨none, false, "Error creando cliente en GoManage"⟩, some cm, 1, []⟩ := by
      simp [createCustomerMutate, hf]
    rw [hm]; exact ⟨rfl, rfl, rfl, rfl⟩
  · have hm : createCustomerMutate ⟨some gm, some cm⟩ bn vn kw
        = ⟨⟨none, false, "Error: " ++ e⟩, some cm, 1, []⟩ := by
      simp [createCustomerMutate, he]
    rw [hm]; exact ⟨rfl, rfl, rfl, rfl⟩

/-- Witness for C4: a truthy, a falsy, and a raising backend create. -/
theorem claim_C4_witness :
    (createCustomerMutate ⟨some sampleClient, some emptyCache⟩ "Acme" "B1" noKwargs).payload.success
      = true ∧
    (createCustomerMutate ⟨some emptyClient, some emptyCache⟩ "Acme" "B1" noKwargs).payload.success
      = false ∧
    (createCustomerMutate ⟨some emptyClient, some emptyCache⟩ "Acme" "B1" noKwargs).cacheAfter
      = some emptyCache ∧
    (createCustomerMutate ⟨some failingClient, some emptyCache⟩ "Acme" "B1" noKwargs).payload.message
      = "Error: boom" := by
  have h1 := (claim_C4 sampleClient emptyCache "Acme" "B1" noKwargs "boom" rfl).1 rfl
  have h2 := (claim_C4 emptyClient emptyCache "Acme" "B1" noKwargs "boom" rfl).2.1 rfl
  have h3 := (claim_C4 failingClient emptyCache "Acme" "B1" noKwargs "boom" rfl).2.2 rfl
  rcases h1 with ⟨cm', _, _, _, hsucc, _⟩
  exact ⟨hsucc, h2.1, h2.2.2.1, h3.2.1⟩

/-- Cache manager whose underlying store raises on every operation. -/
def raisingCache : CacheMgr :=
  ⟨[], [], [], some "store unreachable", some "store unreachable",
   some "store unreachable"⟩

/-- Cache manager whose underlying store raises on `set` only. -/
def setRaisingCache : CacheMgr := ⟨[], [], [], none, some "store unreachable", none⟩

/-- Claim C6: the customer fetch never surfaces an exception — with no
backend client, with a raising backend, or with a raising cache operation it
returns the empty sequence, and with no cache store configured it degrades
to always-miss and still returns the backend data on every call.  (The
embedding is total, so every path returns a value; the conjuncts pin the
value returned on each failure path.) -/
theorem claim_C6 :
    (∀ c l s, (resolveCustomers ⟨none, c⟩ l s).result = [] ∧
      (resolveCustomers ⟨none, c⟩ l s).cacheAfter = c) ∧
    (∀ gm cm l s m, cm.getRaises = some m →
      (resolveCustomers ⟨some gm, some cm⟩ l s).result = [] ∧
      (resolveCustomers ⟨some gm, some cm⟩ l s).backendCalls = 0 ∧
      (resolveCustomers ⟨some gm, some cm⟩ l s).cacheAfter = some cm) ∧
    (∀ gm cm l s e, cm.getRaises = none →
      storeGet cm.custStore (customersKey l s) = none →
      gm.getCustomers l = Except.error e →
      (resolveCustomers ⟨some gm, some cm⟩ l s).result = [] ∧
      (resolveCustomers ⟨some gm, some cm⟩ l s).cacheAfter = some cm) ∧
    (∀ gm l s e, gm.getCustomers l = Except.error e →
      (resolveCustomers ⟨some gm, none⟩ l s).result = []) ∧
    (∀ gm cm l s c cs m, cm.getRaises = none →
      storeGet cm.custStore (customersKey l s) = none →
      gm.getCustomers l = Except.ok (c :: cs) → cm.setRaises = some m →
      (resolveCustomers ⟨some gm, some cm⟩ l s).result = [] ∧
      (resolveCustomers ⟨some gm, some cm⟩ l s).cacheAfter = some cm) ∧
    (∀ gm l v, gm.getCustomers l = Except.ok v →
      (resolveCustomers ⟨some gm, none⟩ l none).result = v ∧
      (resolveCustomers ⟨some gm, none⟩ l none).cacheAfter = none ∧
      (resolveCustomers ⟨some gm, none⟩ l none).setOps = []) := by
  refine ⟨fun c l s => ⟨rfl, rfl⟩, ?_, ?_, ?_, ?_, ?_⟩
  · intro gm cm l s m hg
    rw [resolveCustomers_getRaises gm cm l s m hg]
    exact ⟨rfl, rfl, rfl⟩
  · intro gm cm l s e hg hs hb
    rw [resolveCustomers_miss_err gm cm l s e hg hs hb]
    exact ⟨rfl, rfl⟩
  · intro gm l s e hb
    rw [resolveCustomers_noCache_err gm l s e hb]
  · intro gm cm l s c cs m hg hs hb hst
    rw [resolveCustomers_setRaises gm cm l s c cs m hg hs hb hst]
    exact ⟨rfl, rfl⟩
  · intro gm l v hb
    rw [resolveCustomers_noCache_ok gm l none v hb]
    exact ⟨rfl, rfl, rfl⟩

/-- Witness for C6: each failure path at concrete collaborators, plus the
cache-less call returning the backend data. -/
theorem claim_C6_witness :
    (resolveCustomers ⟨none, none⟩ 5 none).result = [] ∧
    (resolveCustomers ⟨some sampleClient, some raisingCache⟩ 5 none).result = [] ∧
    (resolveCustomers ⟨some failingClient, some emptyCache⟩ 5 none).result = [] ∧
    (resolveCustomers ⟨some failingClient, none⟩ 5 none).result = [] ∧
    (resolveCustomers ⟨some sampleClient, some setRaisingCache⟩ 5 none).result = [] ∧
    (resolveCustomers ⟨some sampleClient, none⟩ 5 none).result
      = [sampleCustomer, sampleCustomer2] := by
  refine ⟨(claim_C6.1 none 5 none).1, ?_, ?_, ?_, ?_, ?_⟩
  · exact (claim_C6.2.1 sampleClient raisingCache 5 none "store unreachable" rfl).1
  · exact (claim_C6.2.2.1 failingClient emptyCache 5 none "boom" rfl rfl rfl).1
  · exact claim_C6.2.2.2.1 failingClient 5 none "boom" rfl
  · exact (claim_C6.2.2.2.2.1 sampleClient setRaisingCache 5 none sampleCustomer
      [sampleCustomer2] "store unreachable" rfl rfl rfl rfl).1
  · exact (claim_C6.2.2.2.2.2 sampleClient 5 [sampleCustomer, sampleCustomer2] rfl).1

/-- Counterexample to C2 as stated: after a `limit=100` fetch with term
`foo` populated the cache, a `limit=100` fetch with term `bar` derives a
different key, misses (one more backend call) and populates a second entry —
the two terms do not share one cache entry. -/
theorem claim_C2_counterexample :
    customersKey 100 (some "foo") ≠ customersKey 100 (some "bar") ∧
    (resolveCustomers ⟨some sampleClient,
       (resolveCustomers ⟨some sampleClient, some emptyCache⟩ 100 (some "foo")).cacheAfter⟩
       100 (some "bar")).backendCalls = 1 ∧
    (resolveCustomers ⟨some sampleClient,
       (resolveCustomers ⟨some sampleClient, some emptyCache⟩ 100 (some "foo")).cacheAfter⟩
       100 (some "bar")).setOps
      = [(customersKey 100 (some "bar"), [sampleCustomer, sampleCustomer2], 3600)] := by
  exact ⟨by decide, by decide, by decide⟩

/-- Claim C2 amended: distinct non-absent filter terms at the same limit
derive distinct cache keys, so each term occupies its own cache entry, each
populated with the full unfiltered backend set and filtered independently on
each call; two terms collapse onto one key (`…_all`) only when both are
absent or empty. -/
theorem claim_C2_amended (gm : GoManageClient) (cm : CacheMgr) (l : Int)
    (t1 t2 : String) (v : List CustomerRec)
    (h1 : t1 ≠ "") (h2 : t2 ≠ "") (hne : t1 ≠ t2) :
    customersKey l (some t1) ≠ customersKey l (some t2) ∧
    productsKey l (some t1) ≠ productsKey l (some t2) ∧
    invoicesKey l (some t1) ≠ invoicesKey l (some t2) ∧
    customersKey l none = customersKey l (some "") ∧
    productsKey l none = productsKey l (some "") ∧
    (cm.getRaises = none → cm.setRaises = none →
      storeGet cm.custStore (customersKey l (some t1)) = none →
      gm.getCustomers l = Except.ok v → v ≠ [] →
      (resolveCustomers ⟨some gm, some cm⟩ l (some t1)).setOps
        = [(customersKey l (some t1), v, 3600)] ∧
      (resolveCustomers ⟨some gm, some cm⟩ l (some t1)).result
        = v.filter (customerMatch (pyLower t1))) := by
  refine ⟨deriveKey_term_ne "customers" l h1 h2 hne,
    deriveKey_term_ne "products" l h1 h2 hne,
    deriveKey_term_ne "invoices" l h1 h2 hne,
    by simp [customersKey, pyOrAll], by simp [productsKey, pyOrAll],
    fun hg hst hs hb hv => ?_⟩
  cases v with
  | nil => cases hv rfl
  | cons c cs =>
    rw [resolveCustomers_miss_ok gm cm l (some t1) c cs hg hst hs hb]
    exact ⟨rfl, by simp [applyCustomerSearch, h1]⟩

/-- Witness for the amended C2 at concrete terms and collaborators. -/
theorem claim_C2_amended_witness :
    customersKey 100 (some "foo") ≠ customersKey 100 (some "bar") ∧
    customersKey 100 none = customersKey 100 (some "") ∧
    (resolveCustomers ⟨some sampleClient, some emptyCache⟩ 100 (some "foo")).setOps
      = [(customersKey 100 (some "foo"), [sampleCustomer, sampleCustomer2], 3600)] := by
  have h := claim_C2_amended sampleClient emptyCache 100 "foo" "bar"
    [sampleCustomer, sampleCustomer2] (by decide) (by decide) (by decide)
  exact ⟨h.1, h.2.2.2.1, (h.2.2.2.2.2 rfl rfl rfl rfl (by decide)).1⟩

/-- Counterexample to C9 as stated: omitting the required `vat_number`
argument yields a request-level validation error from the argument layer,
not a `success=false` mutation payload. -/
theorem claim_C9_counterexample :
    createCustomerField ⟨some sampleClient, some emptyCache⟩
      ⟨some "Acme SL", none, noKwargs⟩ = GraphQLResp.requestError "vat_number" := rfl

/-- Claim C9 amended: the required-ness of `business_name` and `vat_number`
is enforced by the GraphQL argument layer (`required=True`), which rejects a
request missing either with a validation error surfaced as a value in the
response — `mutate` itself only ever runs with both present, and its
`success=false` results come from backend unavailability or failure. -/
theorem claim_C9_amended (ctx : Context) (args : CreateCustomerArgs) :
    (args.business_name = none ∨ args.vat_number = none →
      ∃ f, createCustomerField ctx args = GraphQLResp.requestError f) ∧
    (∀ bn vn, args.business_name = some bn → args.vat_number = some vn →
      createCustomerField ctx args
        = GraphQLResp.payload (createCustomerMutate ctx bn vn args.kwargs)) := by
  rcases args with ⟨b, v, kw⟩
  refine ⟨fun h => ?_, fun bn vn hb hv => ?_⟩
  · rcases h with hb | hv
    · cases hb
      exact ⟨"business_name", rfl⟩
    · cases hv
      cases b with
      | none => exact ⟨"business_name", rfl⟩
      | some bn => exact ⟨"vat_number", rfl⟩
  · cases hb
    cases hv
    rfl

/-- Witness for the amended C9: a missing and a complete argument set. -/
theorem claim_C9_amended_witness :
    (∃ f, createCustomerField ⟨none, none⟩ ⟨none, some "B1", noKwargs⟩
        = GraphQLResp.requestError f) ∧
    createCustomerField ⟨none, none⟩ ⟨some "Acme", some "B1", noKwargs⟩
      = GraphQLResp.payload (createCustomerMutate ⟨none, none⟩ "Acme" "B1" noKwargs) :=
  ⟨(claim_C9_amended ⟨none, none⟩ ⟨none, some "B1", noKwargs⟩).1 (Or.inl rfl),
   (claim_C9_amended ⟨none, none⟩ ⟨some "Acme", some "B1", noKwargs⟩).2 "Acme" "B1" rfl rfl⟩

/-- One customer fetch preserves the all-entries-raw cache invariant. -/
theorem rawCache_stepCustomers (gm : GoManageClient) (cm? : Option CacheMgr)
    (l : Int) (s : Option String) (h : RawCache gm cm?) :
    RawCache gm (resolveCustomers ⟨some gm, cm?⟩ l s).cacheAfter := by
  rcases (resolveCustomers_effects ⟨some gm, cm?⟩ l s).2 with
    ⟨hca, _⟩ | ⟨gm', cm, c0, cs0, hg, hcm, hb, _, hca⟩
  · rw [hca]; exact h
  · obtain rfl : gm = gm' := Option.some.inj hg
    have hcm' : cm? = some cm := hcm
    subst hcm'
    rcases h with ⟨hc, hp, hi⟩
    rw [hca]
    refine ⟨?_, hp, hi⟩
    intro kv hkv
    rcases List.mem_cons.mp hkv with rfl | hkv'
    · exact ⟨l, hb, by simp⟩
    · exact hc kv hkv'

/-- One product fetch preserves the all-entries-raw cache invariant. -/
theorem rawCache_stepProducts (gm : GoManageClient) (cm? : Option CacheMgr)
    (l : Int) (s : Option String) (h : RawCache gm cm?) :
    RawCache gm (resolveProducts ⟨some gm, cm?⟩ l s).cacheAfter := by
  rcases (resolveProducts_effects ⟨some gm, cm?⟩ l s).2 with
    ⟨hca, _⟩ | ⟨gm', cm, p0, ps0, hg, hcm, hb, _, hca⟩
  · rw [hca]; exact h
  · obtain rfl : gm = gm' := Option.some.inj hg
    have hcm' : cm? = some cm := hcm
    subst hcm'
    rcases h with ⟨hc, hp, hi⟩
    rw [hca]
    refine ⟨hc, ?_, hi⟩
    intro kv hkv
    rcases List.mem_cons.mp hkv with rfl | hkv'
    · exact ⟨l, hb, by simp⟩
    · exact hp kv hkv'

/-- One invoice fetch preserves the all-entries-raw cache invariant. -/
theorem rawCache_stepInvoices (gm : GoManageClient) (cm? : Option CacheMgr)
    (l : Int) (d : Option String) (h : RawCache gm cm?) :
    RawCache gm (resolveInvoices ⟨some gm, cm?⟩ l d).cacheAfter := by
  rcases (resolveInvoices_effects ⟨some gm, cm?⟩ l d).2 with
    ⟨hca, _⟩ | ⟨gm', cm, i0, invs0, hg, hcm, hb, _, hca⟩
  · rw [hca]; exact h
  · obtain rfl : gm = gm' := Option.some.inj hg
    have hcm' : cm? = some cm := hcm
    subst hcm'
    rcases h with ⟨hc, hp, hi⟩
    rw [hca]
    refine ⟨hc, hp, ?_⟩
    intro kv hkv
    rcases List.mem_cons.mp hkv with rfl | hkv'
    · exact ⟨l, d, hb, by simp⟩
    · exact hi kv hkv'

/-- Replaying any sequence of read requests preserves the all-entries-raw
cache invariant. -/
theorem rawCache_runReqs (gm : GoManageClient) (rs : List Req) :
    ∀ cm? : Option CacheMgr, RawCache gm cm? →
      RawCache gm (runReqs ⟨some gm, cm?⟩ rs).cache_manager := by
  induction rs with
  | nil => intro cm? h; exact h
  | cons r rs ih =>
    intro cm? h
    cases r with
    | customers l s => exact ih _ (rawCache_stepCustomers gm cm? l s h)
    | products l s => exact ih _ (rawCache_stepProducts gm cm? l s h)
    | invoices l d => exact ih _ (rawCache_stepInvoices gm cm? l d h)

/-- Claim C10: a cache hit performs no cache write (no `set`, no `delete`,
the cache manager is returned unchanged, no backend call, and the filter is
applied to the cached value only on the way out); fetches never call
`delete` on any path; and across any sequence of fetch calls every stored
entry remains a full unfiltered non-empty backend reply. -/
theorem claim_C10 :
    (∀ gm cm l s c cs, cm.getRaises = none →
      storeGet cm.custStore (customersKey l s) = some (c :: cs) →
      (resolveCustomers ⟨some gm, some cm⟩ l s).cacheAfter = some cm ∧
      (resolveCustomers ⟨some gm, some cm⟩ l s).setOps = [] ∧
      (resolveCustomers ⟨some gm, some cm⟩ l s).deleteOps = [] ∧
      (resolveCustomers ⟨some gm, some cm⟩ l s).backendCalls = 0 ∧
      (resolveCustomers ⟨some gm, some cm⟩ l s).result
        = applyCustomerSearch s (c :: cs)) ∧
    (∀ gm cm l s p ps, cm.getRaises = none →
      storeGet cm.prodStore (productsKey l s) = some (p :: ps) →
      (resolveProducts ⟨some gm, some cm⟩ l s).cacheAfter = some cm ∧
      (resolveProducts ⟨some gm, some cm⟩ l s).setOps = [] ∧
      (resolveProducts ⟨some gm, some cm⟩ l s).deleteOps = [] ∧
      (resolveProducts ⟨some gm, some cm⟩ l s).backendCalls = 0 ∧
      (resolveProducts ⟨some gm, some cm⟩ l s).result = applyProductSearch s (p :: ps)) ∧
    (∀ gm cm l d i invs, cm.getRaises = none →
      storeGet cm.invStore (invoicesKey l d) = some (i :: invs) →
      (resolveInvoices ⟨some gm, some cm⟩ l d).cacheAfter = some cm ∧
      (resolveInvoices ⟨some gm, some cm⟩ l d).setOps = [] ∧
      (resolveInvoices ⟨some gm, some cm⟩ l d).deleteOps = [] ∧
      (resolveInvoices ⟨some gm, some cm⟩ l d).backendCalls = 0 ∧
      (resolveInvoices ⟨some gm, some cm⟩ l d).result = i :: invs) ∧
    (∀ ctx l s, (resolveCustomers ctx l s).deleteOps = []) ∧
    (∀ ctx l s, (resolveProducts ctx l s).deleteOps = []) ∧
    (∀ ctx l d, (resolveInvoices ctx l d).deleteOps = []) ∧
    (∀ gm (cm? : Option CacheMgr) rs, RawCache gm cm? →
      RawCache gm (runReqs ⟨some gm, cm?⟩ rs).cache_manager) := by
  refine ⟨?_, ?_, ?_,
    fun ctx l s => (resolveCustomers_effects ctx l s).1,
    fun ctx l s => (resolveProducts_effects ctx l s).1,
    fun ctx l d => (resolveInvoices_effects ctx l d).1,
    fun gm cm? rs h => rawCache_runReqs gm rs cm? h⟩
  · intro gm cm l s c cs hg hs
    rw [resolveCustomers_hit gm cm l s c cs hg hs]
    exact ⟨rfl, rfl, rfl, rfl, rfl⟩
  · intro gm cm l s p ps hg hs
    rw [resolveProducts_hit gm cm l s p ps hg hs]
    exact ⟨rfl, rfl, rfl, rfl, rfl⟩
  · intro gm cm l d i invs hg hs
    rw [resolveInvoices_hit gm cm l d i invs hg hs]
    exact ⟨rfl, rfl, rfl, rfl, rfl⟩

/-- Cache manager pre-populated with one raw entry per resource class. -/
def primedCache : CacheMgr :=
  ⟨[(customersKey 10 none, [sampleCustomer, sampleCustomer2])],
   [(productsKey 10 none, [sampleProduct, sampleProduct2])],
   [(invoicesKey 10 none, [sampleInvoice])], none, none, none⟩

/-- Witness for C10: concrete hits on each class leave the primed cache
untouched, and a concrete request sequence preserves the raw invariant. -/
theorem claim_C10_witness :
    (resolveCustomers ⟨some sampleClient, some primedCache⟩ 10 none).cacheAfter
      = some primedCache ∧
    (resolveCustomers ⟨some sampleClient, some primedCache⟩ 10 none).backendCalls = 0 ∧
    (resolveProducts ⟨some sampleClient, some primedCache⟩ 10 none).setOps = [] ∧
    (resolveInvoices ⟨some sampleClient, some primedCache⟩ 10 none).result
      = [sampleInvoice] ∧
    (resolveInvoices ⟨some sampleClient, none⟩ 50 none).deleteOps = [] ∧
    RawCache sampleClient
      (runReqs ⟨some sampleClient, none⟩ [Req.customers 10 none]).cache_manager := by
  have h1 := claim_C10.1 sampleClient primedCache 10 none sampleCustomer
    [sampleCustomer2] rfl (by decide)
  have h2 := claim_C10.2.1 sampleClient primedCache 10 none sampleProduct
    [sampleProduct2] rfl (by decide)
  have h3 := claim_C10.2.2.1 sampleClient primedCache 10 none sampleInvoice
    [] rfl (by decide)
  exact ⟨h1.1, h1.2.2.2.1, h2.2.1, h3.2.2.2.2,
    claim_C10.2.2.2.2.2.1 ⟨some sampleClient, none⟩ 50 none,
    claim_C10.2.2.2.2.2.2 sampleClient none [Req.customers 10 none] trivial⟩

end DocuApi
